import Mathlib

/-!
Verification development for the morphogen MCP server
(`morphogen_mcp.py` and `src/morphogen/tools/system.py`).

The Python functions are shallowly embedded as executable Lean
definitions.  Strings are modelled by Lean `String` (a list of Unicode
characters); Python's substring test `pat in hay`, `str.lower()`,
`str.strip()`, `str.startswith` and strict `bytes.decode()` are modelled
by the `py*` helpers below.  File-system effects (temp-file creation,
`os.chmod`, `os.remove`) are modelled by explicit state passing over an
association list of paths, and the single `asyncio` subprocess spawn is
modelled by a `SpawnOutcome` parameter describing what the child (or the
spawn/wait itself) did.
-/

/-- `isPrefixB p l` : the char list `p` is a prefix of `l`
(model of list/string prefix matching used by Python's `in`). -/
def isPrefixB : List Char → List Char → Bool
  | [], _ => true
  | _ :: _, [] => false
  | a :: as, b :: bs => a = b && isPrefixB as bs

/-- `isInfixB p l` : the char list `p` occurs contiguously inside `l`. -/
def isInfixB : List Char → List Char → Bool
  | p, [] => p.isEmpty
  | p, b :: t => isPrefixB p (b :: t) || isInfixB p t

/-- Model of Python's substring containment `pat in hay`. -/
def pyContains (hay pat : String) : Bool :=
  isInfixB pat.data hay.data

/-- Model of Python's `s.startswith(pre)`. -/
def pyStartsWith (s pre : String) : Bool :=
  isPrefixB pre.data s.data

/-- Model of Python's `str.lower()` (character-wise lowercasing; the
scripts' keywords are ASCII, where `Char.toLower` agrees with Python). -/
def pyLowerStr (s : String) : String :=
  String.mk (s.data.map Char.toLower)

/-- Model of Python's `str.strip()`: drop whitespace from both ends. -/
def pyStrip (s : String) : String :=
  String.mk (((s.data.dropWhile Char.isWhitespace).reverse.dropWhile
      Char.isWhitespace).reverse)

/-- Strict UTF-8 decoding of a byte sequence, the semantics of Python's
`bytes.decode()` with the default `utf-8`/`strict` arguments: `none`
models the `UnicodeDecodeError` raised on an invalid byte sequence
(continuation-byte shapes, overlong encodings, surrogates and
codepoints above `0x10FFFF` are all rejected, as CPython does). -/
def utf8DecodeList : List Nat → Option (List Char)
  | [] => some []
  | b1 :: rest =>
    if b1 < 0x80 then
      match utf8DecodeList rest with
      | some cs => some (Char.ofNat b1 :: cs)
      | none => none
    else if 0xC2 ≤ b1 ∧ b1 ≤ 0xDF then
      match rest with
      | b2 :: rest2 =>
        if 0x80 ≤ b2 ∧ b2 ≤ 0xBF then
          match utf8DecodeList rest2 with
          | some cs => some (Char.ofNat ((b1 - 0xC0) * 64 + (b2 - 0x80)) :: cs)
          | none => none
        else none
      | [] => none
    else if 0xE0 ≤ b1 ∧ b1 ≤ 0xEF then
      match rest with
      | b2 :: b3 :: rest3 =>
        if 0x80 ≤ b2 ∧ b2 ≤ 0xBF ∧ 0x80 ≤ b3 ∧ b3 ≤ 0xBF then
          let cp := (b1 - 0xE0) * 4096 + (b2 - 0x80) * 64 + (b3 - 0x80)
          if 0x800 ≤ cp ∧ ¬ (0xD800 ≤ cp ∧ cp ≤ 0xDFFF) then
            match utf8DecodeList rest3 with
            | some cs => some (Char.ofNat cp :: cs)
            | none => none
          else none
        else none
      | _ => none
    else if 0xF0 ≤ b1 ∧ b1 ≤ 0xF4 then
      match rest with
      | b2 :: b3 :: b4 :: rest4 =>
        if 0x80 ≤ b2 ∧ b2 ≤ 0xBF ∧ 0x80 ≤ b3 ∧ b3 ≤ 0xBF ∧
            0x80 ≤ b4 ∧ b4 ≤ 0xBF then
          let cp := (b1 - 0xF0) * 262144 + (b2 - 0x80) * 4096 +
            (b3 - 0x80) * 64 + (b4 - 0x80)
          if 0x10000 ≤ cp ∧ cp ≤ 0x10FFFF then
            match utf8DecodeList rest4 with
            | some cs => some (Char.ofNat cp :: cs)
            | none => none
          else none
        else none
      | _ => none
    else none

/-- Model of `bytes.decode()` (strict UTF-8) producing a `String`. -/
def pyDecode (bs : List Nat) : Option String :=
  (utf8DecodeList bs).map String.mk

/-! ## Denylist validator (`validate_script`, morphogen_mcp.py lines 120-131) -/

/-- The denylist `blacklist` of `validate_script`, in declaration order
(the fork-bomb entry is the literal string `:(){ :|:& };:`). -/
def blacklist : List String :=
  ["rm -rf /", "shutdown", "reboot", ":()\x7b :|:& \x7d;:", "mkfs", "dd if="]

/-- The rejection report returned for a matched denylist entry `bad`. -/
def rejectMsg (bad : String) : String :=
  "❌ Detected unsafe command: `" ++ bad ++ "`\nAborting installation."

/-- The acceptance report of `validate_script`. -/
def acceptMsg : String :=
  "✅ Script passed basic validation."

/-- The `for bad in blacklist:` loop of `validate_script`: return the
rejection report at the first entry contained in the script, else the
acceptance report. -/
def validateLoop (script_text : String) : List String → String
  | [] => acceptMsg
  | bad :: rest =>
    if pyContains script_text bad then rejectMsg bad
    else validateLoop script_text rest

/-- `validate_script` (morphogen_mcp.py lines 120-131). -/
def validate_script (script_text : String) : String :=
  validateLoop script_text blacklist

/-! ## Result classifier (`summarize_result`, lines 193-200) -/

/-- `summarize_result` (morphogen_mcp.py lines 193-200). -/
def summarize_result (output : String) : String :=
  if pyContains (pyLowerStr output) "error" then
    "⚠️ Some errors were detected during installation."
  else if pyContains (pyLowerStr output) "success" ||
      pyContains (pyLowerStr output) "started" then
    "✅ The service appears to be installed and running."
  else
    "ℹ️ Installation output reviewed. Manual verification may be needed."

/-! ## File-system and effect model -/

/-- A file on disk: its contents and its permission mode bits. -/
structure FileData where
  contents : String
  mode : Nat
deriving DecidableEq, Repr

/-- The temporary-files area: an association list from paths to files
(most recent entry first). -/
abbrev FS : Type := List (String × FileData)

/-- Reading a file: the first entry at the path, if any. -/
def readFS : FS → String → Option FileData
  | [], _ => none
  | (q, d) :: fs, p => if q = p then some d else readFS fs p

/-- Creating a file with contents `c` (`tempfile.NamedTemporaryFile`
creates its file with owner-only mode `0o600`). -/
def writeFS (fs : FS) (p : String) (c : String) : FS :=
  (p, ⟨c, 0o600⟩) :: fs

/-- `os.chmod`: set the mode bits of the file at `p`. -/
def chmodFS : FS → String → Nat → FS
  | [], _, _ => []
  | (q, d) :: fs, p, m =>
    if q = p then (q, { d with mode := m }) :: fs
    else (q, d) :: chmodFS fs p m

/-- `os.remove`: delete the entry at `p`. -/
def removeFS : FS → String → FS
  | [], _ => []
  | (q, d) :: fs, p => if q = p then fs else (q, d) :: removeFS fs p

/-- Total length of the path names in the temp area (used to build a
certainly-fresh path). -/
def sumKeyLen : FS → Nat
  | [] => 0
  | (k, _) :: fs => k.data.length + sumKeyLen fs

/-- The unique temp path chosen by `tempfile.NamedTemporaryFile(...,
suffix=".sh")`: modelled as a name strictly longer than every existing
path, hence fresh. -/
def freshPath (fs : FS) : String :=
  "/tmp/tmp" ++ String.mk (List.replicate (sumKeyLen fs + 1) 'x') ++ ".sh"

/-- The world state threaded through an invocation: the temp-files area
plus counters for the two effects the claims track — subprocess spawn
attempts (`asyncio.create_subprocess_exec`) and file removals
(`os.remove`). -/
structure World where
  fs : FS
  spawns : Nat
  removes : Nat
deriving DecidableEq

/-- What the single subprocess interaction did: either the spawn/wait
completed with an exit code and raw stdout/stderr byte streams, or the
spawn or wait itself raised an exception with message `msg`. -/
inductive SpawnOutcome where
  | ok (returncode : Int) (stdoutBytes stderrBytes : List Nat)
  | raises (msg : String)

/-- Lines 161-166 of `run_install_script`: create the temporary script
file, write the script text, and `os.chmod` it to `0o755`.  Returns the
updated temp area and the file's path. -/
def materialize (fs : FS) (script_text : String) : FS × String :=
  let p := freshPath fs
  (chmodFS (writeFS fs p script_text) p 0o755, p)

/-- Model of `str(e)` for the `UnicodeDecodeError` raised by strict
`bytes.decode()` on invalid bytes.  The exact text comes from the
Python runtime, not from this repository; no claim depends on it. -/
def unicodeDecodeErrStr : String :=
  "invalid start byte"

/-- `run_install_script` (morphogen_mcp.py lines 151-191), shallowly
embedded over a `World` and the outcome of its one spawn.  The
`try`/`except` shape of the source is mirrored exactly: `os.remove`
(line 183) runs only after `proc.communicate()` returned and both
output streams decoded; any exception jumps to the handler (line 190),
which returns the error report without removing the file. -/
def run_install_script (w : World) (script_text : String)
    (o : SpawnOutcome) : World × String :=
  let fp := materialize w.fs script_text
  let w1 : World := ⟨fp.1, w.spawns + 1, w.removes⟩
  match o with
  | .raises msg =>
    (w1, "❌ Error during installation: " ++ msg)
  | .ok returncode stdoutBytes stderrBytes =>
    match pyDecode stdoutBytes, pyDecode stderrBytes with
    | some out, some err =>
      let output := pyStrip out
      let error := pyStrip err
      let w2 : World := ⟨removeFS w1.fs fp.2, w1.spawns, w1.removes + 1⟩
      if returncode = 0 then
        (w2, "✅ Installation succeeded:\n\n" ++ output)
      else
        (w2, "❌ Installation failed (exit code " ++ toString returncode ++
          "):\n\n" ++ error)
    | _, _ =>
      (w1, "❌ Error during installation: " ++ unicodeDecodeErrStr)

/-- `install_from_llm_script` (morphogen_mcp.py lines 202-224):
validate, short-circuit on a report containing the rejection marker,
else run and summarize. -/
def install_from_llm_script (w : World) (script_text : String)
    (o : SpawnOutcome) : World × String :=
  let validation := validate_script script_text
  if pyContains validation "❌" then (w, validation)
  else
    let wr := run_install_script w script_text o
    let summary := summarize_result wr.2
    (wr.1, String.intercalate "\n"
      ["=== Installation Result ===", wr.2, "", "=== Summary ===", summary])

/-! ## Compatibility checker (`check_compatibility`, morphogen_mcp.py
lines 62-103; the copy in `src/morphogen/tools/system.py` builds the
same report) -/

/-- The host the server runs on, as seen through Python's `platform`
module: `platform.system()`, `platform.release()`, `platform.version()`. -/
structure HostInfo where
  system : String
  release : String
  version : String
deriving DecidableEq

/-- The static compatibility matrix. -/
def compatibilityMatrix : List (String × List String) :=
  [("docker", ["Ubuntu", "Debian", "Rocky", "CentOS", "MacOS", "Windows"]),
   ("teleport", ["Linux", "MacOS", "Windows"]),
   ("netbox", ["Ubuntu", "Debian", "Rocky"])]

/-- Python `dict.get(k, [])` over the matrix. -/
def dictGet : List (String × List String) → String → List String
  | [], _ => []
  | (q, v) :: rest, k => if q = k then v else dictGet rest k

/-- Python's OS-name normalization `"MacOS" if raw == "Darwin" else raw`. -/
def normalizeOS (raw_system : String) : String :=
  if raw_system = "Darwin" then "MacOS" else raw_system

/-- The `response` list built by `check_compatibility` before joining.
`system = none` models passing no system argument; `some ""` is falsy in
Python (`if not system:`) and is normalized exactly like `none`. -/
def check_compat_lines (host : HostInfo) (component : String)
    (system : Option String) : List String :=
  let sys := match system with
    | none => normalizeOS host.system
    | some s => if s = "" then normalizeOS host.system else s
  let supported := dictGet compatibilityMatrix (pyLowerStr component)
  let status := if supported.contains sys then "compatible"
    else "unknown or unverified"
  let response :=
    [component ++ " is " ++ status ++ " with " ++ sys ++ ".",
     "",
     "System detected:",
     "- OS: " ++ sys,
     "- Release: " ++ host.release,
     "- Version: " ++ host.version]
  if sys = "MacOS" && pyStartsWith host.release "10." then
    response ++
      ["\n⚠️ Note: Some modern tools may not support MacOS 10.x or older versions."]
  else response

/-- `check_compatibility` (morphogen_mcp.py lines 62-103): the joined
report text. -/
def check_compatibility (host : HostInfo) (component : String)
    (system : Option String) : String :=
  String.intercalate "\n" (check_compat_lines host component system)

/-! ## Helper lemmas -/

theorem data_append (a b : String) : (a ++ b).data = a.data ++ b.data := rfl

theorem isPrefixB_append {p a : List Char} (c : List Char)
    (h : isPrefixB p a = true) : isPrefixB p (a ++ c) = true := by
  induction p generalizing a with
  | nil => simp [isPrefixB]
  | cons x xs ih =>
    cases a with
    | nil => simp [isPrefixB] at h
    | cons y ys =>
      simp only [isPrefixB, Bool.and_eq_true] at h
      simp only [List.cons_append, isPrefixB, Bool.and_eq_true]
      exact ⟨h.1, ih h.2⟩

theorem isInfixB_nil_left (l : List Char) : isInfixB [] l = true := by
  cases l <;> simp [isInfixB, isPrefixB, List.isEmpty]

theorem isInfixB_of_isPrefixB {p l : List Char}
    (h : isPrefixB p l = true) : isInfixB p l = true := by
  cases l with
  | nil =>
    cases p with
    | nil => simp [isInfixB, List.isEmpty]
    | cons x xs => simp [isPrefixB] at h
  | cons y ys => simp [isInfixB, h]

theorem isInfixB_append_right {p a : List Char} (c : List Char)
    (h : isInfixB p a = true) : isInfixB p (a ++ c) = true := by
  induction a with
  | nil =>
    simp only [isInfixB, List.isEmpty_iff] at h
    subst h
    exact isInfixB_nil_left c
  | cons y ys ih =>
    simp only [isInfixB, Bool.or_eq_true] at h
    rcases h with h | h
    · exact isInfixB_of_isPrefixB (isPrefixB_append c h)
    · simp only [List.cons_append, isInfixB, Bool.or_eq_true]
      exact Or.inr (ih h)

theorem validateLoop_eq_find (s : String) (l : List String) :
    validateLoop s l =
      (match l.find? (fun b => pyContains s b) with
       | some b => rejectMsg b
       | none => acceptMsg) := by
  induction l with
  | nil => rfl
  | cons bad rest ih =>
    cases h : pyContains s bad with
    | true => simp [validateLoop, List.find?, h]
    | false => simp [validateLoop, List.find?, h, ih]

theorem rejectMsg_contains_mark (b : String) :
    pyContains (rejectMsg b) "❌" = true := by
  show isInfixB ("❌".data) (rejectMsg b).data = true
  have hd : (rejectMsg b).data =
      "❌ Detected unsafe command: `".data ++
        (b.data ++ "`\nAborting installation.".data) := by
    simp [rejectMsg, data_append]
  rw [hd]
  exact isInfixB_append_right _ (by decide)

theorem rejectMsg_starts_mark (b : String) :
    pyStartsWith (rejectMsg b) "❌" = true := by
  show isPrefixB ("❌".data) (rejectMsg b).data = true
  have hd : (rejectMsg b).data =
      "❌ Detected unsafe command: `".data ++
        (b.data ++ "`\nAborting installation.".data) := by
    simp [rejectMsg, data_append]
  rw [hd]
  exact isPrefixB_append _ (by decide)

theorem validateLoop_mark (s : String) (l : List String) :
    pyContains (validateLoop s l) "❌" = l.any (fun b => pyContains s b) := by
  induction l with
  | nil =>
    simp only [validateLoop, List.any_nil]
    decide
  | cons bad rest ih =>
    cases h : pyContains s bad with
    | true => simp [validateLoop, h, rejectMsg_contains_mark]
    | false => simp [validateLoop, h, ih]

theorem validate_mark (s : String) :
    pyContains (validate_script s) "❌" = blacklist.any (fun b => pyContains s b) :=
  validateLoop_mark s blacklist

theorem key_le_sum : ∀ (fs : FS) (k : String) (d : FileData),
    (k, d) ∈ fs → k.data.length ≤ sumKeyLen fs := by
  intro fs
  induction fs with
  | nil => intro k d h; cases h
  | cons kv rest ih =>
    intro k d h
    rcases List.mem_cons.mp h with h | h
    · subst h
      simp [sumKeyLen]
    · calc k.data.length ≤ sumKeyLen rest := ih k d h
        _ ≤ sumKeyLen (kv :: rest) := by simp [sumKeyLen]

theorem freshPath_length (fs : FS) :
    (freshPath fs).data.length = sumKeyLen fs + 12 := by
  have h1 : "/tmp/tmp".data.length = 8 := rfl
  have h2 : ".sh".data.length = 3 := rfl
  simp only [freshPath, data_append, List.length_append, h1, h2,
    List.length_replicate]
  omega

theorem freshPath_not_key (fs : FS) (k : String) (d : FileData)
    (h : (k, d) ∈ fs) : k ≠ freshPath fs := by
  intro he
  have h1 : k.data.length ≤ sumKeyLen fs := key_le_sum fs k d h
  have h2 : k.data.length = sumKeyLen fs + 12 := by
    rw [he]; exact freshPath_length fs
  omega

theorem readFS_none (fs : FS) (p : String)
    (h : ∀ k d, (k, d) ∈ fs → k ≠ p) : readFS fs p = none := by
  induction fs with
  | nil => rfl
  | cons kv rest ih =>
    obtain ⟨q, d⟩ := kv
    have hq : q ≠ p := h q d (List.mem_cons_self _ _)
    simp only [readFS, if_neg hq]
    exact ih (fun k d' hm => h k d' (List.mem_cons_of_mem _ hm))

theorem readFS_fresh (fs : FS) : readFS fs (freshPath fs) = none :=
  readFS_none fs (freshPath fs)
    (fun k d hm => freshPath_not_key fs k d hm)

theorem chmod_write (fs : FS) (p c : String) (m : Nat) :
    chmodFS (writeFS fs p c) p m = (p, ⟨c, m⟩) :: fs := by
  simp [writeFS, chmodFS]

theorem materialize_eq (fs : FS) (s : String) :
    materialize fs s = ((freshPath fs, ⟨s, 0o755⟩) :: fs, freshPath fs) := by
  simp [materialize, chmod_write]

theorem readFS_cons_self (fs : FS) (p : String) (d : FileData) :
    readFS ((p, d) :: fs) p = some d := by
  simp [readFS]

theorem removeFS_cons_self (fs : FS) (p : String) (d : FileData) :
    removeFS ((p, d) :: fs) p = fs := by
  simp [removeFS]

theorem run_spawns (w : World) (s : String) (o : SpawnOutcome) :
    (run_install_script w s o).1.spawns = w.spawns + 1 := by
  cases o with
  | raises msg => rfl
  | ok code outB errB =>
    simp only [run_install_script]
    rcases pyDecode outB with _ | out <;> rcases pyDecode errB with _ | err <;>
      simp <;> split <;> rfl

/-! ## Claim theorems -/

/-- C3: for every input string, `validate_script` returns the rejection
report naming the first denylisted substring occurring in the input, in
the denylist's declaration order (`rm -rf /`, `shutdown`, `reboot`, the
fork bomb, `mkfs`, `dd if=`); if none occurs it returns the acceptance
report. -/
theorem validate_first_match :
    blacklist =
      ["rm -rf /", "shutdown", "reboot", ":()\x7b :|:& \x7d;:", "mkfs",
        "dd if="] ∧
    ∀ s, validate_script s =
      (match blacklist.find? (fun b => pyContains s b) with
       | some b => rejectMsg b
       | none => acceptMsg) :=
  ⟨rfl, fun s => validateLoop_eq_find s blacklist⟩

/-- C4: `summarize_result` checks `error` first and with precedence: a
text containing `error` (case-insensitively) yields the error summary
even when `success`/`started` are also present; `success`/`started` are
consulted only when `error` is absent; none of the three yields the
indeterminate summary. -/
theorem summarize_precedence (t : String) :
    (pyContains (pyLowerStr t) "error" = true →
      summarize_result t = "⚠️ Some errors were detected during installation.") ∧
    (pyContains (pyLowerStr t) "error" = false →
      (pyContains (pyLowerStr t) "success" = true ∨
        pyContains (pyLowerStr t) "started" = true) →
      summarize_result t = "✅ The service appears to be installed and running.") ∧
    (pyContains (pyLowerStr t) "error" = false →
      pyContains (pyLowerStr t) "success" = false →
      pyContains (pyLowerStr t) "started" = false →
      summarize_result t =
        "ℹ️ Installation output reviewed. Manual verification may be needed.") := by
  refine ⟨fun h => ?_, fun h1 h2 => ?_, fun h1 h2 h3 => ?_⟩
  · simp [summarize_result, h]
  · rcases h2 with h2 | h2 <;> simp [summarize_result, h1, h2]
  · simp [summarize_result, h1, h2, h3]

/-- Witness for C4 at a text containing both `Error` and `success` and
`started`: the error summary wins. -/
theorem summarize_precedence_witness :
    pyContains (pyLowerStr "Error: but success, service started") "error" = true ∧
    summarize_result "Error: but success, service started" =
      "⚠️ Some errors were detected during installation." :=
  ⟨by decide,
    (summarize_precedence "Error: but success, service started").1 (by decide)⟩

/-- C6: materializing a script text and reading the resulting file back
returns exactly that text, and the file's permission bits are `0o755`
(owner `rwx`, group/other `rx`; in particular the owner executable bit,
bit 6, is set). -/
theorem materialize_roundtrip (fs : FS) (s : String) :
    readFS (materialize fs s).1 (materialize fs s).2 = some ⟨s, 0o755⟩ ∧
    (0o755 : Nat).testBit 6 = true := by
  refine ⟨?_, by decide⟩
  rw [materialize_eq]
  exact readFS_cons_self fs (freshPath fs) ⟨s, 0o755⟩

/-- C7: per invocation the child process is spawned at most once:
`run_install_script` performs exactly one spawn attempt on every path,
and `install_from_llm_script` performs at most one (zero on the rejected
path); no path retries the execution. -/
theorem spawn_at_most_once (w : World) (s : String) (o : SpawnOutcome) :
    (run_install_script w s o).1.spawns = w.spawns + 1 ∧
    (install_from_llm_script w s o).1.spawns ≤ w.spawns + 1 := by
  refine ⟨run_spawns w s o, ?_⟩
  simp only [install_from_llm_script]
  split
  · simp
  · simp [run_spawns]

/-- C9: the rejection marker `❌` occurs in `validate_script`'s returned
text exactly when some denylisted substring occurs in the script (the
acceptance message carries no marker), so `install_from_llm_script`
reaches the execution step (one spawn) iff validation accepted. -/
theorem gate_iff_blacklist (s : String) (w : World) (o : SpawnOutcome) :
    pyContains (validate_script s) "❌" =
      blacklist.any (fun b => pyContains s b) ∧
    (install_from_llm_script w s o).1.spawns =
      (if blacklist.any (fun b => pyContains s b) = true then w.spawns
       else w.spawns + 1) := by
  refine ⟨validate_mark s, ?_⟩
  simp only [install_from_llm_script, validate_mark]
  cases h : blacklist.any (fun b => pyContains s b) with
  | true => simp [h]
  | false => simp [h, run_spawns]

/-- C2: for every script containing a denylisted substring,
`install_from_llm_script` returns the validator's rejection report
(which starts with the rejection marker) with the world untouched: no
file is created and no process spawn is attempted. -/
theorem reject_short_circuit (w : World) (s : String) (o : SpawnOutcome)
    (h : blacklist.any (fun b => pyContains s b) = true) :
    install_from_llm_script w s o = (w, validate_script s) ∧
    pyStartsWith (validate_script s) "❌" = true := by
  have hm : pyContains (validate_script s) "❌" = true := by
    rw [validate_mark]; exact h
  constructor
  · simp [install_from_llm_script, hm]
  · rcases hf : blacklist.find? (fun b => pyContains s b) with _ | b
    · obtain ⟨b, hb, hpb⟩ := List.any_eq_true.mp h
      have := List.find?_eq_none.mp hf b hb
      simp [hpb] at this
    · have hv : validate_script s = rejectMsg b := by
        rw [validate_script, validateLoop_eq_find, hf]
      rw [hv]
      exact rejectMsg_starts_mark b

/-- Witness for C2 at the script `rm -rf / --force`, which contains the
first denylist entry. -/
theorem reject_short_circuit_witness :
    blacklist.any (fun b => pyContains "rm -rf / --force" b) = true ∧
    (install_from_llm_script ⟨[], 0, 0⟩ "rm -rf / --force" (.raises "boom") =
        (⟨[], 0, 0⟩, validate_script "rm -rf / --force") ∧
      pyStartsWith (validate_script "rm -rf / --force") "❌" = true) :=
  ⟨by decide,
    reject_short_circuit ⟨[], 0, 0⟩ "rm -rf / --force" (.raises "boom")
      (by decide)⟩

theorem summarize_err (msg : String) :
    summarize_result ("❌ Error during installation: " ++ msg) =
      "⚠️ Some errors were detected during installation." := by
  have hc : pyContains
      (pyLowerStr ("❌ Error during installation: " ++ msg)) "error" = true := by
    show isInfixB ("error".data)
      (pyLowerStr ("❌ Error during installation: " ++ msg)).data = true
    have hd : (pyLowerStr ("❌ Error during installation: " ++ msg)).data =
        ("❌ Error during installation: ".data.map Char.toLower) ++
          (msg.data.map Char.toLower) := by
      simp [pyLowerStr, data_append]
    rw [hd]
    exact isInfixB_append_right _ (by decide)
  simp [summarize_result, hc]

/-- C10: the classifier runs on the formatted report text, so whenever
`run_install_script` returns via its exception handler (a report
starting `❌ Error during installation`), the summary section of
`install_from_llm_script` is always the error summary: the report text
contains `error` case-insensitively. -/
theorem summary_on_exception_report (w : World) (s msg : String)
    (h : blacklist.any (fun b => pyContains s b) = false) :
    (install_from_llm_script w s (.raises msg)).2 =
      String.intercalate "\n"
        ["=== Installation Result ===",
         "❌ Error during installation: " ++ msg,
         "",
         "=== Summary ===",
         "⚠️ Some errors were detected during installation."] := by
  have hm : pyContains (validate_script s) "❌" = false := by
    rw [validate_mark]; exact h
  have hr : (run_install_script w s (.raises msg)).2 =
      "❌ Error during installation: " ++ msg := rfl
  simp [install_from_llm_script, hm, hr, summarize_err]

/-- Witness for C10 at the accepted script `echo hi` and a spawn
failure message `boom`. -/
theorem summary_on_exception_report_witness :
    blacklist.any (fun b => pyContains "echo hi" b) = false ∧
    (install_from_llm_script ⟨[], 0, 0⟩ "echo hi" (.raises "boom")).2 =
      String.intercalate "\n"
        ["=== Installation Result ===",
         "❌ Error during installation: " ++ "boom",
         "",
         "=== Summary ===",
         "⚠️ Some errors were detected during installation."] :=
  ⟨by decide,
    summary_on_exception_report ⟨[], 0, 0⟩ "echo hi" "boom" (by decide)⟩

/-- C1 counterexample: when the spawn/wait raises (here `boom`), the
exception handler of `run_install_script` returns without reaching
`os.remove` — the removal count stays 0 and the materialized file is
still on disk, contradicting removal on every exit path. -/
theorem run_cleanup_skipped_on_exception :
    (run_install_script ⟨[], 0, 0⟩ "echo hi" (.raises "boom")).1.removes = 0 ∧
    readFS (run_install_script ⟨[], 0, 0⟩ "echo hi" (.raises "boom")).1.fs
      "/tmp/tmpx.sh" = some ⟨"echo hi", 0o755⟩ := by
  decide

/-- C1 amended: when the spawn, the wait and the decoding of both output
streams complete, the file is removed exactly once (on both the zero and
the non-zero exit branch); but when the spawn/wait raises, or an output
stream fails strict decoding, `os.remove` is skipped and the file
remains on disk. -/
theorem run_cleanup_amended (w : World) (s msg : String) (code : Int)
    (outB errB : List Nat) :
    ((pyDecode outB).isSome = true → (pyDecode errB).isSome = true →
      (run_install_script w s (.ok code outB errB)).1.removes = w.removes + 1 ∧
      readFS (run_install_script w s (.ok code outB errB)).1.fs
        (freshPath w.fs) = none) ∧
    ((run_install_script w s (.raises msg)).1.removes = w.removes ∧
      readFS (run_install_script w s (.raises msg)).1.fs (freshPath w.fs) =
        some ⟨s, 0o755⟩) ∧
    ((pyDecode outB).isSome = false ∨ (pyDecode errB).isSome = false →
      (run_install_script w s (.ok code outB errB)).1.removes = w.removes ∧
      readFS (run_install_script w s (.ok code outB errB)).1.fs
        (freshPath w.fs) = some ⟨s, 0o755⟩) := by
  refine ⟨fun h1 h2 => ?_, ?_, fun h => ?_⟩
  · rcases ho : pyDecode outB with _ | out
    · rw [ho] at h1; simp at h1
    rcases he : pyDecode errB with _ | err
    · rw [he] at h2; simp at h2
    have hw : (run_install_script w s (.ok code outB errB)).1 =
        ⟨w.fs, w.spawns + 1, w.removes + 1⟩ := by
      simp only [run_install_script, materialize_eq, ho, he]
      split <;> simp [removeFS_cons_self]
    rw [hw]
    exact ⟨rfl, readFS_fresh w.fs⟩
  · constructor
    · rfl
    · show readFS (materialize w.fs s).1 (freshPath w.fs) = some ⟨s, 0o755⟩
      rw [materialize_eq]
      exact readFS_cons_self w.fs (freshPath w.fs) ⟨s, 0o755⟩
  · have hw : (run_install_script w s (.ok code outB errB)).1 =
        ⟨(freshPath w.fs, ⟨s, 0o755⟩) :: w.fs, w.spawns + 1, w.removes⟩ := by
      rcases ho : pyDecode outB with _ | out <;>
        rcases he : pyDecode errB with _ | err <;>
        simp only [run_install_script, materialize_eq, ho, he]
      rw [ho] at h; rw [he] at h
      simp at h
    rw [hw]
    exact ⟨rfl, readFS_cons_self w.fs (freshPath w.fs) ⟨s, 0o755⟩⟩

/-- Witness for C1 amended on the completed-run branch: stdout `hi`,
empty stderr, exit code 0; the file is removed exactly once and is gone
from the temp area. -/
theorem run_cleanup_amended_witness :
    (pyDecode [104, 105]).isSome = true ∧
    (pyDecode ([] : List Nat)).isSome = true ∧
    ((run_install_script ⟨[], 0, 0⟩ "echo hi" (.ok 0 [104, 105] [])).1.removes
        = 0 + 1 ∧
      readFS (run_install_script ⟨[], 0, 0⟩ "echo hi"
        (.ok 0 [104, 105] [])).1.fs (freshPath ([] : FS)) = none) :=
  ⟨by decide, by decide,
    (run_cleanup_amended ⟨[], 0, 0⟩ "echo hi" "boom" 0 [104, 105] []).1
      (by decide) (by decide)⟩

/-- C5 counterexample: the byte `0xFF` is not valid UTF-8 and strict
`bytes.decode()` raises on it rather than best-effort decoding: the run
falls into the exception handler, and the temp file is not removed. -/
theorem decode_strict_raises :
    pyDecode [255] = none ∧
    (run_install_script ⟨[], 0, 0⟩ "echo hi" (.ok 0 [255] [])).1.removes = 0 ∧
    pyStartsWith (run_install_script ⟨[], 0, 0⟩ "echo hi" (.ok 0 [255] [])).2
      "❌ Error during installation" = true := by
  decide

/-- C5 amended: decoding is strict UTF-8, not best-effort: when both
output streams are valid UTF-8 they are decoded and trimmed of
surrounding whitespace in the report; an invalid stream raises
`UnicodeDecodeError`, which the handler converts into an error report
instead of decoding. -/
theorem decode_amended :
    (∀ (w : World) (s : String) (code : Int) (outB errB : List Nat)
        (out err : String),
      pyDecode outB = some out → pyDecode errB = some err →
      (run_install_script w s (.ok code outB errB)).2 =
        (if code = 0 then "✅ Installation succeeded:\n\n" ++ pyStrip out
         else "❌ Installation failed (exit code " ++ toString code ++
           "):\n\n" ++ pyStrip err)) ∧
    (∀ (w : World) (s : String) (code : Int) (outB errB : List Nat),
      pyDecode outB = none →
      pyStartsWith (run_install_script w s (.ok code outB errB)).2
        "❌ Error during installation" = true) := by
  constructor
  · intro w s code outB errB out err ho he
    simp only [run_install_script, materialize_eq, ho, he]
    by_cases hc : code = 0 <;> simp [hc]
  · intro w s code outB errB ho
    rcases he : pyDecode errB with _ | err <;>
      simp only [run_install_script, materialize_eq, ho, he] <;>
      decide

/-- Witness for C5 amended: stdout bytes ` hi` + newline decode to
` hi\n` and the report carries the trimmed text `hi`. -/
theorem decode_amended_witness :
    pyDecode [32, 104, 105, 10] = some " hi\n" ∧
    pyDecode ([] : List Nat) = some "" ∧
    (run_install_script ⟨[], 0, 0⟩ "echo hi" (.ok 0 [32, 104, 105, 10] [])).2 =
      (if (0 : Int) = 0 then "✅ Installation succeeded:\n\n" ++ pyStrip " hi\n"
       else "❌ Installation failed (exit code " ++ toString (0 : Int) ++
         "):\n\n" ++ pyStrip "") :=
  ⟨by decide, by decide,
    decode_amended.1 ⟨[], 0, 0⟩ "echo hi" 0 [32, 104, 105, 10] [] " hi\n" ""
      (by decide) (by decide)⟩

/-- C8 counterexample: even with the system argument explicitly
supplied, the report text embeds the host's `platform.release()` and
`platform.version()`, so two hosts produce different reports for the
same component and system — `check_compatibility` is not a pure function
of the static table and its arguments. -/
theorem check_compatibility_host_dependent :
    check_compatibility ⟨"Linux", "5.15.0", "v1"⟩ "docker" (some "Ubuntu") ≠
      check_compatibility ⟨"Linux", "6.1.0", "v2"⟩ "docker" (some "Ubuntu") := by
  decide

/-- C8 amended: with an explicitly supplied non-empty system argument,
the compatibility verdict line (the first line of the report) is a pure
function of the component and that system — host-independent; the rest
of the report (release/version lines and the conditional MacOS note)
varies with the host. -/
theorem check_compatibility_status_line_pure (h1 h2 : HostInfo)
    (component sys : String) (hne : sys ≠ "") :
    (check_compat_lines h1 component (some sys)).head? =
      (check_compat_lines h2 component (some sys)).head? ∧
    check_compatibility h1 component (some sys) =
      String.intercalate "\n" (check_compat_lines h1 component (some sys)) := by
  refine ⟨?_, rfl⟩
  simp only [check_compat_lines, hne, if_false]
  split <;> split <;> split <;> rfl

/-- Witness for C8 amended at component `docker`, system `Ubuntu`, on
two different hosts. -/
theorem check_compatibility_status_line_pure_witness :
    ("Ubuntu" : String) ≠ "" ∧
    ((check_compat_lines ⟨"Linux", "5.15.0", "v1"⟩ "docker"
        (some "Ubuntu")).head? =
      (check_compat_lines ⟨"Darwin", "10.4", "v2"⟩ "docker"
        (some "Ubuntu")).head? ∧
    check_compatibility ⟨"Linux", "5.15.0", "v1"⟩ "docker" (some "Ubuntu") =
      String.intercalate "\n"
        (check_compat_lines ⟨"Linux", "5.15.0", "v1"⟩ "docker"
          (some "Ubuntu"))) :=
  ⟨by decide,
    check_compatibility_status_line_pure ⟨"Linux", "5.15.0", "v1"⟩
      ⟨"Darwin", "10.4", "v2"⟩ "docker" "Ubuntu" (by decide)⟩
